import Mathlib

/-!
Verification of the expression-composition core of
`zipline/modelling/factor/factor.py`.

Leaf Terms are identified by stable integer handles; structural identity of
leaves is equality of handles (the deduplication in the source compares term
identity).  Compound-expression template strings are represented structurally
as `Tmpl` trees whose `var i` nodes are the positional placeholders `x_i`.
The external numeric kernels (scipy's `rankdata`, the numexpr evaluator) are
out of scope for the source file and are taken as function parameters.
-/

namespace Zipline

/-- A leaf Term, identified by a stable integer handle. -/
abbrev Leaf := Nat

/-- Structured form of a compound expression's template string: positional
placeholders `x_i`, embedded numeric literals, and operator applications.
`binop op l r` stands for the text `"(l) op (r)"` (or `"l op r"` for the
unparenthesized leaf forms, which parse to the same tree). -/
inductive Tmpl where
  | var (i : Nat)
  | const (c : Rat)
  | binop (op : String) (l r : Tmpl)
  | unop (op : String) (e : Tmpl)
  | func (name : String) (e : Tmpl)
  deriving DecidableEq

/-- Which class a freshly built compound expression is instantiated at:
`NumExprFactor` (numeric) or `NumExprFilter` (boolean). -/
inductive ExprKind where
  | factor
  | filter
  deriving DecidableEq

/-- A compound numeric expression (`NumExprFactor` / `NumExprFilter`,
distinguished by `kind`): a template plus an ordered tuple of bound leaves. -/
structure NumExpr where
  kind : ExprKind
  expr : Tmpl
  binds : List Leaf
  deriving DecidableEq

/-- A runtime value that is a `Factor` instance: either a compound
`NumExprFactor` or a plain leaf Factor. -/
inductive FactorVal where
  | compound (t : Tmpl) (bs : List Leaf)
  | leaf (l : Leaf)
  deriving DecidableEq

/-- An operand as dispatched on by the operator implementations: a Factor,
a numeric constant (`NUMERIC_TYPES`), or some unsupported object. -/
inductive Operand where
  | factor (f : FactorVal)
  | num (c : Rat)
  | other
  deriving DecidableEq

/-- A numpy dtype, as declarable by a factor subtype. -/
inductive DType where
  | float64
  | float32
  | int64
  | int32
  | bool_
  deriving DecidableEq

/-- Whether a dtype is a floating-point type. -/
def DType.isFloating : DType → Bool
  | .float64 => true
  | .float32 => true
  | _ => false

/-- The errors raised by this module (`bad_op`, `UnknownRankMethod`,
`UnsupportedDataType`, and the two factory-time `ValueError`s). -/
inductive ZError where
  | badOp (op : String)
  | unknownRankMethod (method : String) (choices : List String)
  | unsupportedDataType (dtype : DType)
  | invalidUnaryOperator (op : String)
  | unsupportedMathFunction (name : String)
  deriving DecidableEq

/-- Modelled from the spec: the fixed arithmetic binary-operator set
`MATH_BINOPS` imported from the missing `zipline.modelling.expression`
module. -/
def MATH_BINOPS : List String := ["+", "-", "*", "/", "**", "%"]

/-- Modelled from the spec: the fixed comparison-operator set `COMPARISONS`
imported from the missing `zipline.modelling.expression` module. -/
def COMPARISONS : List String := ["==", "!=", "<", ">", "<=", ">="]

/-- Modelled from the spec: `is_comparison` from the missing expression
module — membership in the fixed comparison set. -/
def is_comparison (op : String) : Bool := decide (op ∈ COMPARISONS)

/-- Modelled from the spec: the fixed allow-list `NUMEXPR_MATH_FUNCS` of
supported math function names imported from the missing expression module. -/
def NUMEXPR_MATH_FUNCS : List String :=
  ["sin", "cos", "tan", "arcsin", "arccos", "arctan", "sinh", "cosh", "tanh",
   "arcsinh", "arccosh", "arctanh", "log", "log10", "log1p", "exp", "expm1",
   "sqrt", "abs"]

/-- Modelled from the spec: the operator whose method
`method_name_for_op(op, commute=True)` resolves to on the right operand.
Comparisons flip direction (`a < b` delegates to `b > a`); arithmetic
operators keep their symbol and resolve to the reflected (`__r*__`)
implementation. -/
def commuted_op (op : String) : String :=
  if op = "<" then ">"
  else if op = ">" then "<"
  else if op = "<=" then ">="
  else if op = ">=" then "<="
  else op

/-- Modelled from the spec: the union pass of the merge algorithm — A's
leaves in order, then B's leaves in order, skipping any leaf from B that is
structurally identical to one already placed from A. -/
def merge_binds (a b : List Leaf) : List Leaf :=
  a ++ b.filter (fun t => decide (t ∉ a))

/-- Renumbering of the positional placeholders of a template. -/
def renumber (f : Nat → Nat) : Tmpl → Tmpl
  | .var i => .var (f i)
  | .const c => .const c
  | .binop op l r => .binop op (renumber f l) (renumber f r)
  | .unop op e => .unop op (renumber f e)
  | .func n e => .func n (renumber f e)

/-- Modelled from the spec: the view of an operand as a trivial one-term
expression (a compound keeps its parts, a leaf becomes `x_0` bound to
itself, a constant becomes an embedded literal with no binds). -/
def as_expr_parts : Operand → Option (Tmpl × List Leaf)
  | .factor (.compound t bs) => some (t, bs)
  | .factor (.leaf l) => some (.var 0, [l])
  | .num c => some (.const c, [])
  | .other => none

/-- Modelled from the spec: `NumericalExpression.build_binary_op` from the
missing expression module.  Given the compound self's template and binds and
an operand, returns `(self_expr, other_expr, new_inputs)`: the unchanged
self template, the operand's template with its placeholders renumbered to
the indices assigned by the deduplicating union pass, and the merged bind
list; `none` models the raised error on an unsupported operand. -/
def build_binary_op (t : Tmpl) (bs : List Leaf) (other : Operand) :
    Option (Tmpl × Tmpl × List Leaf) :=
  match as_expr_parts other with
  | none => none
  | some (tB, bsB) =>
    let merged := merge_binds bs bsB
    some (t, renumber (fun i => merged.indexOf (bsB.getD i 0)) tB, merged)

/-- `binop_return_type` from the source: comparisons build `NumExprFilter`,
everything else builds `NumExprFactor`. -/
def binop_return_type (op : String) : ExprKind :=
  if is_comparison op then ExprKind.filter else ExprKind.factor

/-- The compound-self branch of `binary_operator`: merge and wrap
`"(left) op (right)"` at the operator's return type. -/
def compound_binop (op : String) (t : Tmpl) (bs : List Leaf) (other : Operand) :
    Except ZError NumExpr :=
  match build_binary_op t bs other with
  | some (selfE, otherE, newInputs) =>
    Except.ok ⟨binop_return_type op, Tmpl.binop op selfE otherE, newInputs⟩
  | none => Except.error (ZError.badOp op)

/-- `reflected_binary_operator` from the source: for a compound self, merge
with the operand and render the sides swapped (`"(right) op (left)"` relative
to the original call); for a plain leaf self only the numeric-constant case
is handled (`"constant op x_0"`); everything else raises `bad_op`. -/
def reflected_binary_operator (op : String) (self : FactorVal) (other : Operand) :
    Except ZError NumExpr :=
  match self with
  | .compound t bs =>
    match build_binary_op t bs other with
    | some (selfE, otherE, newInputs) =>
      Except.ok ⟨ExprKind.factor, Tmpl.binop op otherE selfE, newInputs⟩
    | none => Except.error (ZError.badOp op)
  | .leaf l =>
    match other with
    | .num c => Except.ok ⟨ExprKind.factor, Tmpl.binop op (Tmpl.const c) (Tmpl.var 0), [l]⟩
    | _ => Except.error (ZError.badOp op)

/-- `binary_operator` from the source.  Dispatch, in priority order: compound
self merges; a compound right operand is delegated to its commuted method
(the flipped comparison, or the reflected arithmetic operator); a plain leaf
right operand binds one leaf when it is the very same leaf as self and two
leaves otherwise; a numeric constant is embedded as a literal; anything else
raises `bad_op`. -/
def binary_operator (op : String) (self : FactorVal) (other : Operand) :
    Except ZError NumExpr :=
  match self with
  | .compound t bs => compound_binop op t bs other
  | .leaf l =>
    match other with
    | .factor (.compound tO bsO) =>
      if is_comparison op then
        compound_binop (commuted_op op) tO bsO (Operand.factor (FactorVal.leaf l))
      else
        reflected_binary_operator op (FactorVal.compound tO bsO)
          (Operand.factor (FactorVal.leaf l))
    | .factor (.leaf lO) =>
      if l = lO then
        Except.ok ⟨binop_return_type op, Tmpl.binop op (Tmpl.var 0) (Tmpl.var 0), [l]⟩
      else
        Except.ok ⟨binop_return_type op, Tmpl.binop op (Tmpl.var 0) (Tmpl.var 1), [l, lO]⟩
    | .num c =>
      Except.ok ⟨binop_return_type op, Tmpl.binop op (Tmpl.var 0) (Tmpl.const c), [l]⟩
    | .other => Except.error (ZError.badOp op)

/-- `unary_operator` from the source: only `valid_ops = {'-'}` is accepted,
any other symbol raises `ValueError` when the factory itself runs; the
returned method is total on Factors. -/
def unary_operator (op : String) : Except ZError (FactorVal → NumExpr) :=
  if op ∉ (["-"] : List String) then
    Except.error (ZError.invalidUnaryOperator op)
  else
    Except.ok (fun self =>
      match self with
      | .compound t bs => ⟨ExprKind.factor, Tmpl.unop op t, bs⟩
      | .leaf l => ⟨ExprKind.factor, Tmpl.unop op (Tmpl.var 0), [l]⟩)

/-- `function_application` from the source: the name must be in
`NUMEXPR_MATH_FUNCS`, otherwise `ValueError` is raised when the factory
itself runs; the returned method is total on Factors. -/
def function_application (func : String) : Except ZError (FactorVal → NumExpr) :=
  if func ∉ NUMEXPR_MATH_FUNCS then
    Except.error (ZError.unsupportedMathFunction func)
  else
    Except.ok (fun self =>
      match self with
      | .compound t bs => ⟨ExprKind.factor, Tmpl.func func t, bs⟩
      | .leaf l => ⟨ExprKind.factor, Tmpl.func func (Tmpl.var 0), [l]⟩)

/-- The operator symbols for which the `Factor` class body installs a
generated binary-operator overload: `MATH_BINOPS.union(COMPARISONS - {'=='})`.
-/
def factor_binop_overloads : List String :=
  MATH_BINOPS ++ COMPARISONS.filter (fun op => decide (op ≠ "=="))

/-- `Factor.eq` from the source: the named method built as
`binary_operator('==')` in place of the excluded `__eq__` overload. -/
def Factor.eq (self : FactorVal) (other : Operand) : Except ZError NumExpr :=
  binary_operator "==" self other

/-- `_RANK_METHODS` from the source. -/
def _RANK_METHODS : List String := ["average", "min", "max", "dense", "ordinal"]

/-- A floating-point cell value: NaN or a number (modelled rationally). -/
inductive Val where
  | nan
  | num (q : Rat)
  deriving DecidableEq

/-- The `Rank` factor: a single input factor and a tie-break method. -/
structure Rank where
  input : FactorVal
  method : String

/-- `Rank._validate` from the source: raise `UnknownRankMethod` carrying the
supplied method and the valid choices when the stored method is not in
`_RANK_METHODS`. -/
def Rank._validate (r : Rank) : Except ZError Unit :=
  if r.method ∉ _RANK_METHODS then
    Except.error (ZError.unknownRankMethod r.method _RANK_METHODS)
  else
    Except.ok ()

/-- `Rank.compute_from_arrays` from the source: apply the ranking primitive
(scipy's `rankdata`, a black-box kernel taken as a parameter) with the
configured method to each row of the single input independently, then
overwrite every cell whose `mask` cell is false with NaN. -/
def Rank.compute_from_arrays (r : Rank) (rankdata : String → List Val → List Val)
    (arr : List (List Val)) (mask : List (List Bool)) : List (List Val) :=
  List.zipWith
    (fun row mrow =>
      List.zipWith (fun v m => if m then v else Val.nan)
        (rankdata r.method row) mrow)
    arr mask

/-- A `CustomFactor` subtype, carrying its declared dtype. -/
structure CustomFactor where
  dtype : DType

/-- `CustomFactor._validate` from the source: raise `UnsupportedDataType`
carrying the declared dtype unless it is `float64`. -/
def CustomFactor._validate (c : CustomFactor) : Except ZError Unit :=
  if c.dtype ≠ DType.float64 then
    Except.error (ZError.unsupportedDataType c.dtype)
  else
    Except.ok ()

/-- Modelled from the spec: the external `PercentileFilter` constructor from
the missing `zipline.modelling.filter` module — it stores the factor as its
single input and the two percentile bounds unchanged, with no range
validation at this layer. -/
structure PercentileFilter where
  inputs : List FactorVal
  min_percentile : Rat
  max_percentile : Rat
  deriving DecidableEq

/-- `Factor.percentile_between` from the source: a pass-through to the
`PercentileFilter` constructor. -/
def percentile_between (self : FactorVal) (min_percentile max_percentile : Rat) :
    PercentileFilter :=
  ⟨[self], min_percentile, max_percentile⟩

/-- The set of placeholder indices occurring in a template. -/
def Tmpl.varSet : Tmpl → Finset Nat
  | .var i => {i}
  | .const _ => ∅
  | .binop _ l r => l.varSet ∪ r.varSet
  | .unop _ e => e.varSet
  | .func _ e => e.varSet

/-- The structural invariant of a compound expression: the bound leaves are
pairwise distinct and the placeholders used by the template are exactly the
contiguous indices `0 .. binds.length - 1`. -/
def WFExpr (t : Tmpl) (bs : List Leaf) : Prop :=
  bs.Nodup ∧ t.varSet = Finset.range bs.length

/-! ### Helper lemmas about the merge pass -/

lemma varSet_renumber (f : Nat → Nat) (t : Tmpl) :
    (renumber f t).varSet = t.varSet.image f := by
  induction t with
  | var i => simp [renumber, Tmpl.varSet]
  | const c => simp [renumber, Tmpl.varSet]
  | binop op l r ihl ihr =>
    simp [renumber, Tmpl.varSet, Finset.image_union, ihl, ihr]
  | unop op e ih => simp [renumber, Tmpl.varSet, ih]
  | func n e ih => simp [renumber, Tmpl.varSet, ih]

lemma mem_merge_binds_of_mem_right {a b : List Leaf} {x : Leaf} (hx : x ∈ b) :
    x ∈ merge_binds a b := by
  by_cases hxa : x ∈ a
  · exact List.mem_append_left _ hxa
  · exact List.mem_append_right _ (List.mem_filter.2 ⟨hx, decide_eq_true hxa⟩)

lemma merge_binds_length (a b : List Leaf) :
    a.length ≤ (merge_binds a b).length := by
  simp [merge_binds]

lemma merge_binds_nodup {a b : List Leaf} (ha : a.Nodup) (hb : b.Nodup) :
    (merge_binds a b).Nodup := by
  refine List.Nodup.append ha (hb.filter _) ?_
  intro x hxa hxf
  exact (of_decide_eq_true (List.mem_filter.1 hxf).2) hxa

lemma merge_binds_range (a b : List Leaf) (hb : b.Nodup) :
    Finset.range a.length ∪
      (Finset.range b.length).image
        (fun i => (merge_binds a b).indexOf (b.getD i 0)) =
      Finset.range (merge_binds a b).length := by
  ext j
  simp only [Finset.mem_union, Finset.mem_image, Finset.mem_range]
  constructor
  · rintro (hj | ⟨i, hi, rfl⟩)
    · exact lt_of_lt_of_le hj (merge_binds_length a b)
    · rw [List.getD_eq_getElem _ _ hi]
      exact List.indexOf_lt_length.2
        (mem_merge_binds_of_mem_right (List.getElem_mem hi))
  · intro hj
    by_cases hja : j < a.length
    · exact Or.inl hja
    · right
      have hlen : (merge_binds a b).length =
          a.length + (b.filter (fun t => decide (t ∉ a))).length := by
        simp [merge_binds]
      have hj2 : j - a.length < (b.filter (fun t => decide (t ∉ a))).length := by
        omega
      have hxf : (b.filter (fun t => decide (t ∉ a)))[j - a.length] ∈
          b.filter (fun t => decide (t ∉ a)) := List.getElem_mem hj2
      have hxb : (b.filter (fun t => decide (t ∉ a)))[j - a.length] ∈ b :=
        (List.mem_filter.1 hxf).1
      have hxa : (b.filter (fun t => decide (t ∉ a)))[j - a.length] ∉ a :=
        of_decide_eq_true (List.mem_filter.1 hxf).2
      obtain ⟨i, hi, hbi⟩ := List.getElem_of_mem hxb
      refine ⟨i, hi, ?_⟩
      rw [List.getD_eq_getElem _ _ hi, hbi]
      rw [merge_binds, List.indexOf_append_of_not_mem hxa]
      have hidx := List.indexOf_getElem (hb.filter (fun t => decide (t ∉ a)))
        (j - a.length) hj2
      rw [hidx]
      omega

/-! ### C2 -/

/-- C2: combining two compound expressions with a supported binary operator
yields a compound expression whose `binds` has no two structurally-identical
leaves, in which any leaf shared by both operands appears exactly once, and
whose template uses exactly `binds.length` distinct placeholder indices. -/
theorem binary_operator_merge_dedup
    (op : String) (tA : Tmpl) (bsA : List Leaf) (tB : Tmpl) (bsB : List Leaf)
    (e : NumExpr)
    (_hop : op ∈ MATH_BINOPS ++ COMPARISONS)
    (hA : WFExpr tA bsA) (hB : WFExpr tB bsB)
    (h : binary_operator op (FactorVal.compound tA bsA)
          (Operand.factor (FactorVal.compound tB bsB)) = Except.ok e) :
    e.binds.Nodup ∧
      (∀ l, l ∈ bsA → l ∈ bsB → e.binds.count l = 1) ∧
      e.expr.varSet.card = e.binds.length := by
  simp only [binary_operator, compound_binop, build_binary_op, as_expr_parts,
    Except.ok.injEq] at h
  subst h
  refine ⟨merge_binds_nodup hA.1 hB.1, ?_, ?_⟩
  · intro l hlA hlB
    exact List.count_eq_one_of_mem (merge_binds_nodup hA.1 hB.1)
      (List.mem_append_left _ hlA)
  · show (Tmpl.binop op tA
      (renumber (fun i => (merge_binds bsA bsB).indexOf (bsB.getD i 0)) tB)).varSet.card =
      (merge_binds bsA bsB).length
    rw [show (Tmpl.binop op tA
        (renumber (fun i => (merge_binds bsA bsB).indexOf (bsB.getD i 0)) tB)).varSet =
        tA.varSet ∪
          (renumber (fun i => (merge_binds bsA bsB).indexOf (bsB.getD i 0)) tB).varSet
      from rfl]
    rw [varSet_renumber, hA.2, hB.2, merge_binds_range bsA bsB hB.1,
      Finset.card_range]

/-- Witness for C2 at `A = (x_0 + x_1)` bound to leaves `[5, 7]` and
`B = (x_0 * x_1)` bound to leaves `[7, 9]`, which share the leaf `7`. -/
theorem binary_operator_merge_dedup_witness :
    ([5, 7, 9] : List Leaf).Nodup ∧
      List.count 7 ([5, 7, 9] : List Leaf) = 1 ∧
      (Tmpl.binop "+" (Tmpl.binop "+" (Tmpl.var 0) (Tmpl.var 1))
        (Tmpl.binop "*" (Tmpl.var 1) (Tmpl.var 2))).varSet.card = 3 := by
  have h := binary_operator_merge_dedup "+"
    (Tmpl.binop "+" (Tmpl.var 0) (Tmpl.var 1)) [5, 7]
    (Tmpl.binop "*" (Tmpl.var 0) (Tmpl.var 1)) [7, 9]
    ⟨binop_return_type "+",
      Tmpl.binop "+" (Tmpl.binop "+" (Tmpl.var 0) (Tmpl.var 1))
        (Tmpl.binop "*" (Tmpl.var 1) (Tmpl.var 2)),
      [5, 7, 9]⟩
    (by decide) ⟨by decide, by decide⟩ ⟨by decide, by decide⟩ (by rfl)
  exact ⟨h.1, h.2.1 7 (by decide) (by decide), h.2.2⟩

/-! ### C1 -/

/-- C1: for any 2-D input and parallel same-shaped boolean mask,
`Rank.compute_from_arrays` applies the configured tie-break method to each
row independently via the ranking primitive, and every output cell whose
mask cell is false is NaN regardless of the rank the primitive assigned
there; cells with a true mask carry the primitive's per-row rank. -/
theorem Rank_compute_from_arrays_masks_nan
    (r : Rank) (rankdata : String → List Val → List Val)
    (arr : List (List Val)) (mask : List (List Bool)) (i j : Nat) (d : Val)
    (hprim : ∀ xs, (rankdata r.method xs).length = xs.length)
    (hi : i < arr.length) (him : i < mask.length)
    (hrow : (mask.getD i []).length = (arr.getD i []).length)
    (hj : j < (arr.getD i []).length) :
    ((r.compute_from_arrays rankdata arr mask).getD i []).getD j d =
      if (mask.getD i []).getD j true then
        (rankdata r.method (arr.getD i [])).getD j d
      else Val.nan := by
  rw [List.getD_eq_getElem _ _ him] at *
  rw [List.getD_eq_getElem _ _ hi] at *
  have hin : i < (r.compute_from_arrays rankdata arr mask).length := by
    simp only [Rank.compute_from_arrays, List.length_zipWith]
    omega
  rw [List.getD_eq_getElem _ _ hin]
  have hcell : (r.compute_from_arrays rankdata arr mask)[i] =
      List.zipWith (fun v m => if m then v else Val.nan)
        (rankdata r.method arr[i]) mask[i] := by
    simp [Rank.compute_from_arrays, List.getElem_zipWith]
  rw [hcell]
  have hjin : j < (List.zipWith (fun v m => if m then v else Val.nan)
      (rankdata r.method arr[i]) mask[i]).length := by
    simp only [List.length_zipWith, hprim]
    omega
  rw [List.getD_eq_getElem _ _ hjin, List.getElem_zipWith]
  have hjr : j < (rankdata r.method arr[i]).length := by
    rw [hprim]; omega
  rw [List.getD_eq_getElem _ _ (by omega : j < mask[i].length),
    List.getD_eq_getElem _ _ hjr]

/-- Witness for C1: row `[3, 1, 2]` with mask `[true, false, true]` under an
identity "ranking" primitive — the masked-out middle cell is NaN. -/
theorem Rank_compute_from_arrays_masks_nan_witness :
    ((Rank.compute_from_arrays ⟨FactorVal.leaf 0, "ordinal"⟩ (fun _ xs => xs)
        [[Val.num 3, Val.num 1, Val.num 2]] [[true, false, true]]).getD 0 []).getD 1
        (Val.num 0) = Val.nan := by
  have h := Rank_compute_from_arrays_masks_nan ⟨FactorVal.leaf 0, "ordinal"⟩
    (fun _ xs => xs) [[Val.num 3, Val.num 1, Val.num 2]] [[true, false, true]]
    0 1 (Val.num 0) (fun _ => rfl) (by decide) (by decide) (by decide) (by decide)
  simpa using h

/-! ### C3 -/

/-- C3: applying a binary operator to two plain leaf Factors yields, when the
right operand is the very same leaf as the left, a one-leaf compound
expression `x_0 op x_0` bound to `(self,)`, and otherwise a two-leaf compound
expression `x_0 op x_1` bound to `(self, other)` in that order. -/
theorem binary_operator_leaf_leaf (op : String) (l lO : Leaf) :
    binary_operator op (FactorVal.leaf l) (Operand.factor (FactorVal.leaf lO)) =
      if l = lO then
        Except.ok ⟨binop_return_type op,
          Tmpl.binop op (Tmpl.var 0) (Tmpl.var 0), [l]⟩
      else
        Except.ok ⟨binop_return_type op,
          Tmpl.binop op (Tmpl.var 0) (Tmpl.var 1), [l, lO]⟩ := by
  by_cases h : l = lO <;> simp [binary_operator, h]

/-! ### C5 -/

/-- C5: `Rank` validation fails with `UnknownRankMethod` naming the supplied
method and the full valid set whenever the stored method is outside
`_RANK_METHODS`, and succeeds for every method in that set. -/
theorem Rank_validate_method (r : Rank) :
    (r.method ∉ _RANK_METHODS →
      Rank._validate r =
        Except.error (ZError.unknownRankMethod r.method _RANK_METHODS)) ∧
    (r.method ∈ _RANK_METHODS → Rank._validate r = Except.ok ()) := by
  constructor <;> intro h <;> simp [Rank._validate, h]

/-- Witness for C5: `method='bogus'` is rejected with the full choice set,
`method='ordinal'` is accepted. -/
theorem Rank_validate_method_witness :
    Rank._validate ⟨FactorVal.leaf 0, "bogus"⟩ =
      Except.error (ZError.unknownRankMethod "bogus" _RANK_METHODS) ∧
    Rank._validate ⟨FactorVal.leaf 0, "ordinal"⟩ = Except.ok () :=
  ⟨(Rank_validate_method ⟨FactorVal.leaf 0, "bogus"⟩).1 (by decide),
   (Rank_validate_method ⟨FactorVal.leaf 0, "ordinal"⟩).2 (by decide)⟩

/-! ### C4 -/

lemma math_not_comparison {op : String} (h : op ∈ MATH_BINOPS) :
    is_comparison op = false := by
  simp only [MATH_BINOPS, List.mem_cons, List.not_mem_nil, or_false] at h
  rcases h with h | h | h | h | h | h <;> subst h <;> decide

/-- Counterexample for C4: for the plain leaf Factors `0` and `1` and the
operator `+`, the reflected form applied to the right leaf with the left
leaf as argument raises `bad_op` instead of producing a compound expression,
while the plain operator does produce one. -/
theorem reflected_binary_operator_leaf_pair_fails :
    reflected_binary_operator "+" (FactorVal.leaf 1)
        (Operand.factor (FactorVal.leaf 0)) =
      Except.error (ZError.badOp "+") ∧
    binary_operator "+" (FactorVal.leaf 0) (Operand.factor (FactorVal.leaf 1)) =
      Except.ok ⟨ExprKind.factor, Tmpl.binop "+" (Tmpl.var 0) (Tmpl.var 1),
        [0, 1]⟩ := by
  constructor <;> rfl

/-- C4 (amended): for every arithmetic operator, a plain leaf Factor `A`
combined with a compound expression `B` delegates to the reflected form of
the operator on `B` with `A` as argument, so the two calls produce the
identical compound expression; and against a numeric constant the plain and
reflected forms produce mirror-image templates over the same single bind.
For a plain leaf right operand the reflected form instead raises `bad_op`
(see the counterexample). -/
theorem binary_operator_delegates_reflected :
    (∀ op ∈ MATH_BINOPS, ∀ (a : Leaf) (tB : Tmpl) (bsB : List Leaf),
      binary_operator op (FactorVal.leaf a)
          (Operand.factor (FactorVal.compound tB bsB)) =
        reflected_binary_operator op (FactorVal.compound tB bsB)
          (Operand.factor (FactorVal.leaf a))) ∧
    (∀ op ∈ MATH_BINOPS, ∀ (b : Leaf) (c : Rat),
      reflected_binary_operator op (FactorVal.leaf b) (Operand.num c) =
        Except.ok ⟨ExprKind.factor,
          Tmpl.binop op (Tmpl.const c) (Tmpl.var 0), [b]⟩ ∧
      binary_operator op (FactorVal.leaf b) (Operand.num c) =
        Except.ok ⟨ExprKind.factor,
          Tmpl.binop op (Tmpl.var 0) (Tmpl.const c), [b]⟩) := by
  constructor
  · intro op hop a tB bsB
    simp [binary_operator, math_not_comparison hop]
  · intro op hop b c
    refine ⟨rfl, ?_⟩
    simp [binary_operator, binop_return_type, math_not_comparison hop]

/-- Witness for C4 at `op = "+"`, leaf `0`, compound `x_0` over `[5]`, and
constant `2`. -/
theorem binary_operator_delegates_reflected_witness :
    binary_operator "+" (FactorVal.leaf 0)
        (Operand.factor (FactorVal.compound (Tmpl.var 0) [5])) =
      reflected_binary_operator "+" (FactorVal.compound (Tmpl.var 0) [5])
        (Operand.factor (FactorVal.leaf 0)) ∧
    reflected_binary_operator "+" (FactorVal.leaf 0) (Operand.num 2) =
      Except.ok ⟨ExprKind.factor,
        Tmpl.binop "+" (Tmpl.const 2) (Tmpl.var 0), [0]⟩ :=
  ⟨binary_operator_delegates_reflected.1 "+" (by decide) 0 (Tmpl.var 0) [5],
   (binary_operator_delegates_reflected.2 "+" (by decide) 0 2).1⟩

/-! ### C6 -/

lemma is_comparison_commuted_op (op : String) :
    is_comparison (commuted_op op) = is_comparison op := by
  unfold commuted_op
  split_ifs with h1 h2 h3 h4
  · subst h1; decide
  · subst h2; decide
  · subst h3; decide
  · subst h4; decide
  · rfl

lemma binop_return_type_commuted_op (op : String) :
    binop_return_type (commuted_op op) = binop_return_type op := by
  unfold binop_return_type
  rw [is_comparison_commuted_op]

/-- C6: whenever a binary operator applied to valid operands succeeds, the
kind of the resulting compound expression is `binop_return_type op` —
boolean (`NumExprFilter`) exactly when the operator is a comparison, numeric
(`NumExprFactor`) otherwise. -/
theorem binary_operator_return_kind
    (op : String) (self : FactorVal) (other : Operand) (e : NumExpr)
    (h : binary_operator op self other = Except.ok e) :
    e.kind = binop_return_type op ∧
      (e.kind = ExprKind.filter ↔ is_comparison op = true) := by
  have hkind : e.kind = binop_return_type op := by
    cases self with
    | compound t bs =>
      simp only [binary_operator, compound_binop] at h
      cases hb : build_binary_op t bs other with
      | none => rw [hb] at h; simp at h
      | some v =>
        obtain ⟨t1, t2, bs2⟩ := v
        rw [hb] at h
        simp only [Except.ok.injEq] at h
        subst h
        rfl
    | leaf l =>
      cases other with
      | factor fv =>
        cases fv with
        | compound tO bsO =>
          simp only [binary_operator] at h
          by_cases hc : is_comparison op = true
          · rw [if_pos hc] at h
            simp only [compound_binop, build_binary_op, as_expr_parts,
              Except.ok.injEq] at h
            subst h
            exact (binop_return_type_commuted_op op).symm ▸ rfl
          · rw [if_neg hc] at h
            simp only [reflected_binary_operator, build_binary_op,
              as_expr_parts, Except.ok.injEq] at h
            subst h
            show ExprKind.factor = binop_return_type op
            simp [binop_return_type, hc]
        | leaf lO =>
          simp only [binary_operator] at h
          by_cases hll : l = lO
          · rw [if_pos hll] at h
            simp only [Except.ok.injEq] at h
            subst h
            rfl
          · rw [if_neg hll] at h
            simp only [Except.ok.injEq] at h
            subst h
            rfl
      | num c =>
        simp only [binary_operator, Except.ok.injEq] at h
        subst h
        rfl
      | other =>
        simp [binary_operator] at h
  refine ⟨hkind, ?_⟩
  rw [hkind, binop_return_type]
  cases hc : is_comparison op <;> simp [hc]

/-- Witness for C6 at `op = "+"` on a leaf and a constant: the result is
numeric-kind and `+` is not a comparison. -/
theorem binary_operator_return_kind_witness :
    (⟨binop_return_type "+", Tmpl.binop "+" (Tmpl.var 0) (Tmpl.const 1),
      [0]⟩ : NumExpr).kind = binop_return_type "+" ∧
    ((⟨binop_return_type "+", Tmpl.binop "+" (Tmpl.var 0) (Tmpl.const 1),
      [0]⟩ : NumExpr).kind = ExprKind.filter ↔ is_comparison "+" = true) :=
  binary_operator_return_kind "+" (FactorVal.leaf 0) (Operand.num 1)
    ⟨binop_return_type "+", Tmpl.binop "+" (Tmpl.var 0) (Tmpl.const 1), [0]⟩
    rfl

/-! ### C7 -/

/-- C7: the unary-operator factory raises its configuration error at
factory-construction time for every symbol other than negation, and the
function-application factory does the same for every name outside the
allow-list; for negation and allow-listed names each factory returns a
method without error (and the returned methods are total on Factors, so no
such failure can occur at call time). -/
theorem operator_factories_fail_fast :
    (∀ op : String, op ≠ "-" →
      unary_operator op = Except.error (ZError.invalidUnaryOperator op)) ∧
    (∃ g, unary_operator "-" = Except.ok g) ∧
    (∀ func : String, func ∉ NUMEXPR_MATH_FUNCS →
      function_application func =
        Except.error (ZError.unsupportedMathFunction func)) ∧
    (∀ func ∈ NUMEXPR_MATH_FUNCS, ∃ g, function_application func = Except.ok g) := by
  refine ⟨?_, ⟨_, rfl⟩, ?_, ?_⟩
  · intro op h
    simp [unary_operator, h]
  · intro func h
    simp [function_application, h]
  · intro func h
    simp [function_application, h]

/-- Witness for C7: `~` and `frobnicate` are rejected when the factories
run; `sqrt` is accepted. -/
theorem operator_factories_fail_fast_witness :
    unary_operator "~" = Except.error (ZError.invalidUnaryOperator "~") ∧
    function_application "frobnicate" =
      Except.error (ZError.unsupportedMathFunction "frobnicate") ∧
    ∃ g, function_application "sqrt" = Except.ok g :=
  ⟨operator_factories_fail_fast.1 "~" (by decide),
   operator_factories_fail_fast.2.2.1 "frobnicate" (by decide),
   operator_factories_fail_fast.2.2.2 "sqrt" (by decide)⟩

/-! ### C8 -/

/-- Counterexample for C8: `float32` is a floating-point dtype, yet a
`CustomFactor` subtype declaring it fails validation — the check accepts
only `float64`, not every floating value type. -/
theorem CustomFactor_validate_float32_rejected :
    DType.isFloating DType.float32 = true ∧
    CustomFactor._validate ⟨DType.float32⟩ =
      Except.error (ZError.unsupportedDataType DType.float32) := by
  constructor <;> rfl

/-- C8 (amended): `CustomFactor` validation raises `UnsupportedDataType`
naming the declared dtype whenever it is not exactly `float64` (including
other floating types such as `float32`), and only a `float64` declaration
passes. -/
theorem CustomFactor_validate_float64_only (c : CustomFactor) :
    (c.dtype ≠ DType.float64 →
      CustomFactor._validate c =
        Except.error (ZError.unsupportedDataType c.dtype)) ∧
    (c.dtype = DType.float64 → CustomFactor._validate c = Except.ok ()) := by
  constructor <;> intro h <;> simp [CustomFactor._validate, h]

/-- Witness for C8: an `int64` declaration is rejected naming `int64`, a
`float64` declaration passes. -/
theorem CustomFactor_validate_float64_only_witness :
    CustomFactor._validate ⟨DType.int64⟩ =
      Except.error (ZError.unsupportedDataType DType.int64) ∧
    CustomFactor._validate ⟨DType.float64⟩ = Except.ok () :=
  ⟨(CustomFactor_validate_float64_only ⟨DType.int64⟩).1 (by decide),
   (CustomFactor_validate_float64_only ⟨DType.float64⟩).2 (by decide)⟩

/-! ### C9 -/

/-- C9: `percentile_between` returns a percentile filter whose single input
is the receiving factor and whose stored bounds are exactly the supplied
pair, for every pair of numeric bounds (no `[0, 100]` or `min ≤ max`
enforcement at this layer), and it is a total function — it never raises. -/
theorem percentile_between_passthrough (f : FactorVal) (a b : Rat) :
    (percentile_between f a b).inputs = [f] ∧
    (percentile_between f a b).min_percentile = a ∧
    (percentile_between f a b).max_percentile = b :=
  ⟨rfl, rfl, rfl⟩

/-! ### C10 -/

/-- C10: the `==` symbol is excluded from the generated binary-operator
overloads installed on `Factor`, while the named method `eq` is exactly
`binary_operator('==')`: on plain leaves it builds the boolean-kind
compound expression `x_0 == x_1` bound to `(a, b)`, or `x_0 == x_0` bound
to `(a,)` when both operands are the same leaf. -/
theorem eq_operator_excluded :
    ("==" ∉ factor_binop_overloads) ∧
    (∀ a b : Leaf,
      Factor.eq (FactorVal.leaf a) (Operand.factor (FactorVal.leaf b)) =
        if a = b then
          Except.ok ⟨ExprKind.filter,
            Tmpl.binop "==" (Tmpl.var 0) (Tmpl.var 0), [a]⟩
        else
          Except.ok ⟨ExprKind.filter,
            Tmpl.binop "==" (Tmpl.var 0) (Tmpl.var 1), [a, b]⟩) := by
  constructor
  · decide
  · intro a b
    by_cases h : a = b <;> simp [Factor.eq, binary_operator, h] <;> rfl

end Zipline
